import Mathlib

/- Verification of the martini datacube and source-geometry layer.

   The definitions below are a shallow embedding of src/martini/_datacube.py
   (class DataCube) and of the SPHSource behaviour that the repository's tests
   (src/tests/test_sources.py) exercise.  Machine floating point numbers are
   modelled by exact rationals.  The two physical constants used by the radio
   doppler convention are exact integers: the HI rest frequency
   1.420405751e9 Hz and the speed of light 299792458 m/s.  Angular quantities
   are carried in the units the code stores in its wcs (degrees for the sky
   axes, metres per second for the velocity axis), so no unit conversion
   factors appear. -/

/-- Rest frequency of the HI 21 cm line in Hz (1.420405751e9, an exact integer),
the constant HIfreq of the source module. -/
def HIfreq : ℚ := 1420405751

/-- Speed of light in metres per second, the exact value the radio doppler
equivalency divides by. -/
def cLight : ℚ := 299792458

/-- Spectral axis unit as recorded in the wcs of the code: metres per second or Hz. -/
inductive SpecUnit
  | mps
  | hz
deriving DecidableEq

/-- Spectral axis ctype label as recorded in the wcs of the code. -/
inductive SpecCType
  | veloObs
  | freqObs
deriving DecidableEq

/-- State of a DataCube instance.  `arr` is the sample array `_array` (the
trailing stokes axis of extent 1 is dropped), `dimX`/`dimY` are the actual
spatial extents of the allocated array, and the `crpix`/`cdelt`/`crval` fields
are the wcs calibration entries for the three axes (FITS 1-based reference
pixels, as the code stores them). -/
structure DataCube where
  n_px_x : Nat
  n_px_y : Nat
  n_channels : Nat
  px_size : ℚ
  channel_width : ℚ
  velocity_centre : ℚ
  ra : ℚ
  dec : ℚ
  padx : Nat
  pady : Nat
  arr : Nat → Nat → Nat → ℚ
  dimX : Nat
  dimY : Nat
  crpix1 : ℚ
  crpix2 : ℚ
  crpix3 : ℚ
  cdelt1 : ℚ
  cdelt2 : ℚ
  cdelt3 : ℚ
  crval1 : ℚ
  crval2 : ℚ
  crval3 : ℚ
  ctype3 : SpecCType
  unit3 : SpecUnit
  freq_channel_mode : Bool

/-- DataCube.__init__: zero array of shape (nx, ny, nc, 1), reference pixel
[nx/2 + 0.5, ny/2 + 0.5, nc // 2], deltas [-px_size, px_size, channel_width],
reference values [ra, dec, velocity_centre], spectral axis in velocity mode. -/
def DataCube.construct (nx ny nc : Nat) (px ch vc ra0 dec0 : ℚ) : DataCube :=
  { n_px_x := nx
    n_px_y := ny
    n_channels := nc
    px_size := px
    channel_width := ch
    velocity_centre := vc
    ra := ra0
    dec := dec0
    padx := 0
    pady := 0
    arr := fun _ _ _ => 0
    dimX := nx
    dimY := ny
    crpix1 := (nx : ℚ) / 2 + 1 / 2
    crpix2 := (ny : ℚ) / 2 + 1 / 2
    crpix3 := ((nc / 2 : Nat) : ℚ)
    cdelt1 := -px
    cdelt2 := px
    cdelt3 := ch
    crval1 := ra0
    crval2 := dec0
    crval3 := vc
    ctype3 := SpecCType.veloObs
    unit3 := SpecUnit.mps
    freq_channel_mode := false }

/-- wcs_pix2world with origin 0 along axis 1 at the intermediate (projection
plane) level: crval1 + (p - (crpix1 - 1)) * cdelt1.  The TAN sky projection is
a fixed function of this intermediate coordinate and crval, so equal
intermediates mean equal sky positions. -/
def DataCube.worldX (g : DataCube) (p : ℚ) : ℚ :=
  g.crval1 + (p - (g.crpix1 - 1)) * g.cdelt1

/-- wcs_pix2world with origin 0 along axis 2, see `DataCube.worldX`. -/
def DataCube.worldY (g : DataCube) (p : ℚ) : ℚ :=
  g.crval2 + (p - (g.crpix2 - 1)) * g.cdelt2

/-- DataCube._channel_mids: spectral world coordinate of 0-based channel k
(the spectral axis is linear, so pix2world is exactly affine). -/
def DataCube.channel_mids (g : DataCube) (k : Nat) : ℚ :=
  g.crval3 + ((k : ℚ) - (g.crpix3 - 1)) * g.cdelt3

/-- DataCube._channel_edges: spectral world coordinate at half-channel offsets
(pixel positions arange(nc + 1) - 0.5), for k = 0 .. n_channels. -/
def DataCube.channel_edges (g : DataCube) (k : Nat) : ℚ :=
  g.crval3 + (((k : ℚ) - 1 / 2) - (g.crpix3 - 1)) * g.cdelt3

/-- Radio doppler conversion of a velocity (m/s) to a frequency (Hz):
f = f0 * (1 - v / c), the convert_to_Hz lambda of freq_channels. -/
def convert_to_Hz (v : ℚ) : ℚ := HIfreq * (1 - v / cLight)

/-- Radio doppler conversion of a frequency (Hz) to a velocity (m/s):
v = c * (f0 - f) / f0, the convert_to_ms lambda of velocity_channels. -/
def convert_to_ms (f : ℚ) : ℚ := cLight * (HIfreq - f) / HIfreq

/-- DataCube.freq_channels: no-op in frequency mode, otherwise converts the
spectral reference value and per-channel delta (delta via the absolute
difference of the converted delta and the converted zero point) and flips the
label, unit and mode flag. -/
def DataCube.freq_channels (g : DataCube) : DataCube :=
  if g.freq_channel_mode then g
  else
    { g with
      cdelt3 := |convert_to_Hz g.cdelt3 - convert_to_Hz 0|
      crval3 := convert_to_Hz g.crval3
      ctype3 := SpecCType.freqObs
      unit3 := SpecUnit.hz
      freq_channel_mode := true }

/-- DataCube.velocity_channels: no-op in velocity mode, otherwise the converse
conversion of `DataCube.freq_channels`. -/
def DataCube.velocity_channels (g : DataCube) : DataCube :=
  if g.freq_channel_mode then
    { g with
      cdelt3 := |convert_to_ms g.cdelt3 - convert_to_ms 0|
      crval3 := convert_to_ms g.crval3
      ctype3 := SpecCType.veloObs
      unit3 := SpecUnit.mps
      freq_channel_mode := false }
  else g

theorem HIfreq_pos : 0 < HIfreq := by norm_num [HIfreq]

theorem cLight_pos : 0 < cLight := by norm_num [cLight]

/-- The radio doppler conversions invert each other exactly on reference values. -/
theorem convert_ms_Hz (v : ℚ) : convert_to_ms (convert_to_Hz v) = v := by
  unfold convert_to_ms convert_to_Hz
  have h1 : HIfreq ≠ 0 := ne_of_gt HIfreq_pos
  have h2 : cLight ≠ 0 := ne_of_gt cLight_pos
  field_simp
  ring

/-- Difference of a converted velocity delta and the converted zero point. -/
theorem convert_Hz_sub_zero (d : ℚ) :
    convert_to_Hz d - convert_to_Hz 0 = -(HIfreq / cLight * d) := by
  have h2 : cLight ≠ 0 := ne_of_gt cLight_pos
  unfold convert_to_Hz
  field_simp
  ring

/-- Difference of a converted frequency delta and the converted zero point. -/
theorem convert_ms_sub_zero (x : ℚ) :
    convert_to_ms x - convert_to_ms 0 = -(cLight / HIfreq * x) := by
  have h1 : HIfreq ≠ 0 := ne_of_gt HIfreq_pos
  unfold convert_to_ms
  field_simp
  ring

/-- The width conversion of freq_channels sends a nonnegative velocity delta d
to HIfreq * d / cLight. -/
theorem width_to_Hz (d : ℚ) (hd : 0 ≤ d) :
    |convert_to_Hz d - convert_to_Hz 0| = HIfreq / cLight * d := by
  rw [convert_Hz_sub_zero, abs_neg, abs_of_nonneg]
  exact mul_nonneg (le_of_lt (div_pos HIfreq_pos cLight_pos)) hd

/-- The width conversion of velocity_channels inverts the width conversion of
freq_channels on nonnegative deltas. -/
theorem width_roundtrip (d : ℚ) (hd : 0 ≤ d) :
    |convert_to_ms |convert_to_Hz d - convert_to_Hz 0| - convert_to_ms 0| = d := by
  rw [width_to_Hz d hd, convert_ms_sub_zero]
  have h1 : HIfreq ≠ 0 := ne_of_gt HIfreq_pos
  have h2 : cLight ≠ 0 := ne_of_gt cLight_pos
  have h3 : cLight / HIfreq * (HIfreq / cLight * d) = d := by
    field_simp
    ring
  rw [h3, abs_neg, abs_of_nonneg hd]

/-- On a negative velocity delta the frequency/velocity width round trip
returns the absolute value: the sign is lost. -/
theorem width_roundtrip_neg (d : ℚ) (hd : d ≤ 0) :
    |convert_to_ms |convert_to_Hz d - convert_to_Hz 0| - convert_to_ms 0| = -d := by
  have h1 : |convert_to_Hz d - convert_to_Hz 0| = HIfreq / cLight * (-d) := by
    rw [convert_Hz_sub_zero, show -(HIfreq / cLight * d) = HIfreq / cLight * (-d) by ring]
    exact abs_of_nonneg
      (mul_nonneg (le_of_lt (div_pos HIfreq_pos cLight_pos)) (neg_nonneg.2 hd))
  rw [h1, convert_ms_sub_zero]
  have h2 : HIfreq ≠ 0 := ne_of_gt HIfreq_pos
  have h3 : cLight ≠ 0 := ne_of_gt cLight_pos
  have h4 : cLight / HIfreq * (HIfreq / cLight * (-d)) = -d := by
    field_simp
    ring
  rw [h4, neg_neg, abs_of_nonpos hd]

/-- DataCube.add_pad: a fresh zero array of shape
(n_px_x + 2 px, n_px_y + 2 py, n_channels, 1) receives the old array through
the python slice assignment new[px:-px, py:-py, ...] = old.  A python slice
[p:-p] on a length L axis has extent L - 2 p for p >= 1 but extent 0 for
p = 0, and the numpy assignment demands the old extent to equal the slice
extent or to be 1 (broadcasting); otherwise the assignment raises, modelled
as none.  On success the reference pixel moves by (px, py) and the pad is
recorded. -/
def DataCube.add_pad (g : DataCube) (px py : Nat) : Option DataCube :=
  let newX := g.n_px_x + 2 * px
  let newY := g.n_px_y + 2 * py
  let tx := if px = 0 then 0 else newX - 2 * px
  let ty := if py = 0 then 0 else newY - 2 * py
  if (g.dimX = tx ∨ g.dimX = 1) ∧ (g.dimY = ty ∨ g.dimY = 1) then
    some
      { g with
        arr := fun i j k =>
          if px ≤ i ∧ i < px + tx ∧ py ≤ j ∧ j < py + ty then
            g.arr (if g.dimX = 1 then 0 else i - px)
              (if g.dimY = 1 then 0 else j - py) k
          else 0
        dimX := newX
        dimY := newY
        crpix1 := g.crpix1 + px
        crpix2 := g.crpix2 + py
        padx := px
        pady := py }
  else none

/-- DataCube.drop_pad: no-op when no pad is recorded, otherwise keeps the view
_array[padx:-padx, pady:-pady, ...] (python slice extents as in
`DataCube.add_pad`), moves the reference pixel back and resets the pad. -/
def DataCube.drop_pad (g : DataCube) : DataCube :=
  if g.padx = 0 ∧ g.pady = 0 then g
  else
    { g with
      arr := fun i j k => g.arr (i + g.padx) (j + g.pady) k
      dimX := if g.padx = 0 then 0 else g.dimX - 2 * g.padx
      dimY := if g.pady = 0 then 0 else g.dimY - 2 * g.pady
      crpix1 := g.crpix1 - g.padx
      crpix2 := g.crpix2 - g.pady
      padx := 0
      pady := 0 }

/-- DataCube.spatial_slices: _array[..., 0].transpose((2, 0, 1)), one 2-D
spatial plane per channel, a view over the live array. -/
def DataCube.spatial_slices (g : DataCube) : Nat → Nat → Nat → ℚ :=
  fun c i j => g.arr i j c

/-- DataCube.spectra: _array[..., 0].reshape(n_px_x * n_px_y, n_channels).
The numpy reshape is only valid when the element counts agree (the code uses
the logical pixel counts, not the actual array shape); an invalid reshape
raises, modelled as none.  On success entry (p, k) is element p * nc + k of
the C-order flattening of the (dimX, dimY, nc) array. -/
def DataCube.spectra (g : DataCube) : Option (Nat → Nat → ℚ) :=
  if g.dimX * g.dimY * g.n_channels = g.n_px_x * g.n_px_y * g.n_channels then
    some fun p k =>
      g.arr ((p * g.n_channels + k) / (g.dimY * g.n_channels))
        (((p * g.n_channels + k) / g.n_channels) % g.dimY)
        ((p * g.n_channels + k) % g.n_channels)
  else none

/-- C1 (amended): for a grid whose spectral axis is in velocity mode (mode
flag, label and unit) with nonnegative per-channel delta, freq_channels
followed by velocity_channels restores the whole grid state exactly — in
particular the spectral reference value, the per-channel delta and every
channel edge; the conversion matching the current mode is a no-op in either
mode, and repeating either conversion twice changes nothing (for every grid). -/
theorem C1_spectral_roundtrip (g : DataCube)
    (hm : g.freq_channel_mode = false)
    (hc : g.ctype3 = SpecCType.veloObs)
    (hu : g.unit3 = SpecUnit.mps)
    (hd : 0 ≤ g.cdelt3) :
    g.freq_channels.velocity_channels = g
    ∧ (∀ k, g.freq_channels.velocity_channels.channel_edges k = g.channel_edges k)
    ∧ g.velocity_channels = g
    ∧ (∀ h2 : DataCube, h2.freq_channel_mode = true → h2.freq_channels = h2)
    ∧ (∀ h2 : DataCube, h2.freq_channels.freq_channels = h2.freq_channels)
    ∧ (∀ h2 : DataCube, h2.velocity_channels.velocity_channels = h2.velocity_channels) := by
  have key : g.freq_channels.velocity_channels = g := by
    unfold DataCube.freq_channels DataCube.velocity_channels
    simp only [hm, Bool.false_eq_true, if_false, if_true]
    rw [width_roundtrip _ hd, convert_ms_Hz, ← hc, ← hu, ← hm]
  refine ⟨key, fun k => by rw [key], ?_, ?_, ?_, ?_⟩
  · simp [DataCube.velocity_channels, hm]
  · intro h2 hb
    simp [DataCube.freq_channels, hb]
  · intro h2
    by_cases hb : h2.freq_channel_mode <;>
      simp [DataCube.freq_channels, hb]
  · intro h2
    by_cases hb : h2.freq_channel_mode <;>
      simp [DataCube.velocity_channels, hb]

/-- C1 counterexample: a grid constructed with channel width -4000 m/s is in
velocity mode, yet the frequency/velocity round trip returns per-channel delta
+4000, an exact sign flip rather than a floating point tolerance effect. -/
theorem C1_counterexample :
    ((DataCube.construct 2 2 2 1 (-4000) 0 0 0).freq_channels.velocity_channels).cdelt3
      ≠ (DataCube.construct 2 2 2 1 (-4000) 0 0 0).cdelt3 := by
  have h1 : ((DataCube.construct 2 2 2 1 (-4000) 0 0 0).freq_channels.velocity_channels).cdelt3
      = |convert_to_ms |convert_to_Hz (-4000) - convert_to_Hz 0| - convert_to_ms 0| := rfl
  rw [h1, width_roundtrip_neg (-4000) (by norm_num)]
  simp only [DataCube.construct]
  norm_num

/-- Concrete velocity mode grid used to witness the round trip law. -/
def gC1 : DataCube := DataCube.construct 4 4 4 1 4000 0 0 0

/-- C1 witness: the round trip and no-op laws instantiated on a concrete grid. -/
theorem C1_spectral_roundtrip_witness :
    (gC1.freq_channel_mode = false ∧ gC1.ctype3 = SpecCType.veloObs
      ∧ gC1.unit3 = SpecUnit.mps ∧ 0 ≤ gC1.cdelt3)
    ∧ (gC1.freq_channels.velocity_channels = gC1
      ∧ (∀ k, gC1.freq_channels.velocity_channels.channel_edges k = gC1.channel_edges k)
      ∧ gC1.velocity_channels = gC1
      ∧ (∀ h2 : DataCube, h2.freq_channel_mode = true → h2.freq_channels = h2)
      ∧ (∀ h2 : DataCube, h2.freq_channels.freq_channels = h2.freq_channels)
      ∧ (∀ h2 : DataCube, h2.velocity_channels.velocity_channels = h2.velocity_channels)) :=
  ⟨⟨rfl, rfl, rfl, by norm_num [gC1, DataCube.construct]⟩,
    C1_spectral_roundtrip gC1 rfl rfl rfl (by norm_num [gC1, DataCube.construct])⟩

/-- C9 (amended): a constructed grid has a zero-filled sample array, the
0-based spatial reference index crpix - 1 is the geometric centre (n - 1) / 2
of each spatial axis and maps to the reference sky position, the spectral
reference pixel entry is n_channels // 2 (so the reference spectral value is
the physical value of 0-based channel n_channels // 2 - 1, not of channel
n_channels // 2), and the spectral axis starts in velocity mode. -/
theorem C9_construct (nx ny nc : Nat) (px ch vc ra0 dec0 : ℚ) (hnc : 1 ≤ nc / 2) :
    (∀ i j k, (DataCube.construct nx ny nc px ch vc ra0 dec0).arr i j k = 0)
    ∧ (DataCube.construct nx ny nc px ch vc ra0 dec0).crpix1 - 1 = ((nx : ℚ) - 1) / 2
    ∧ (DataCube.construct nx ny nc px ch vc ra0 dec0).crpix2 - 1 = ((ny : ℚ) - 1) / 2
    ∧ (DataCube.construct nx ny nc px ch vc ra0 dec0).worldX (((nx : ℚ) - 1) / 2) = ra0
    ∧ (DataCube.construct nx ny nc px ch vc ra0 dec0).worldY (((ny : ℚ) - 1) / 2) = dec0
    ∧ (DataCube.construct nx ny nc px ch vc ra0 dec0).crpix3 = ((nc / 2 : Nat) : ℚ)
    ∧ (DataCube.construct nx ny nc px ch vc ra0 dec0).channel_mids (nc / 2 - 1) = vc
    ∧ (DataCube.construct nx ny nc px ch vc ra0 dec0).freq_channel_mode = false := by
  refine ⟨fun i j k => rfl, ?_, ?_, ?_, ?_, rfl, ?_, rfl⟩
  · simp only [DataCube.construct]
    ring
  · simp only [DataCube.construct]
    ring
  · simp only [DataCube.worldX, DataCube.construct]
    ring
  · simp only [DataCube.worldY, DataCube.construct]
    ring
  · simp only [DataCube.channel_mids, DataCube.construct]
    rw [Nat.cast_sub hnc]
    push_cast
    ring

/-- C9 counterexample: on the default-sized grid (64 channels, velocity centre
0, channel width 4000 m/s) the physical value of channel 64 // 2 = 32 is
4000 m/s, not the reference spectral value 0: the reference value sits at
0-based channel 31. -/
theorem C9_counterexample :
    (DataCube.construct 256 256 64 1 4000 0 0 0).channel_mids (64 / 2)
      ≠ (DataCube.construct 256 256 64 1 4000 0 0 0).velocity_centre := by
  simp only [DataCube.channel_mids, DataCube.construct]
  norm_num

/-- C9 witness: the construction law instantiated at the default parameters. -/
theorem C9_construct_witness :
    1 ≤ 64 / 2
    ∧ ((∀ i j k, (DataCube.construct 256 256 64 1 4000 0 0 0).arr i j k = 0)
      ∧ (DataCube.construct 256 256 64 1 4000 0 0 0).crpix1 - 1 = ((256 : ℚ) - 1) / 2
      ∧ (DataCube.construct 256 256 64 1 4000 0 0 0).crpix2 - 1 = ((256 : ℚ) - 1) / 2
      ∧ (DataCube.construct 256 256 64 1 4000 0 0 0).worldX (((256 : ℚ) - 1) / 2) = 0
      ∧ (DataCube.construct 256 256 64 1 4000 0 0 0).worldY (((256 : ℚ) - 1) / 2) = 0
      ∧ (DataCube.construct 256 256 64 1 4000 0 0 0).crpix3 = ((64 / 2 : Nat) : ℚ)
      ∧ (DataCube.construct 256 256 64 1 4000 0 0 0).channel_mids (64 / 2 - 1) = 0
      ∧ (DataCube.construct 256 256 64 1 4000 0 0 0).freq_channel_mode = false) :=
  ⟨by decide, C9_construct 256 256 64 1 4000 0 0 0 (by decide)⟩

/-- C10: both spectral mode conversions leave the sample array, the array
extents, the logical pixel counts, the recorded pads, the whole spatial
calibration and the spectral reference pixel unchanged; only the spectral
reference value, delta, label, unit and mode flag (and hence the derived
channel midpoints and edges) are touched. -/
theorem C10_conversion_frame (g : DataCube) :
    (g.freq_channels.arr = g.arr ∧ g.freq_channels.dimX = g.dimX
      ∧ g.freq_channels.dimY = g.dimY ∧ g.freq_channels.n_px_x = g.n_px_x
      ∧ g.freq_channels.n_px_y = g.n_px_y ∧ g.freq_channels.n_channels = g.n_channels
      ∧ g.freq_channels.padx = g.padx ∧ g.freq_channels.pady = g.pady
      ∧ g.freq_channels.crpix1 = g.crpix1 ∧ g.freq_channels.crpix2 = g.crpix2
      ∧ g.freq_channels.crpix3 = g.crpix3 ∧ g.freq_channels.cdelt1 = g.cdelt1
      ∧ g.freq_channels.cdelt2 = g.cdelt2 ∧ g.freq_channels.crval1 = g.crval1
      ∧ g.freq_channels.crval2 = g.crval2)
    ∧ (g.velocity_channels.arr = g.arr ∧ g.velocity_channels.dimX = g.dimX
      ∧ g.velocity_channels.dimY = g.dimY ∧ g.velocity_channels.n_px_x = g.n_px_x
      ∧ g.velocity_channels.n_px_y = g.n_px_y
      ∧ g.velocity_channels.n_channels = g.n_channels
      ∧ g.velocity_channels.padx = g.padx ∧ g.velocity_channels.pady = g.pady
      ∧ g.velocity_channels.crpix1 = g.crpix1 ∧ g.velocity_channels.crpix2 = g.crpix2
      ∧ g.velocity_channels.crpix3 = g.crpix3 ∧ g.velocity_channels.cdelt1 = g.cdelt1
      ∧ g.velocity_channels.cdelt2 = g.cdelt2 ∧ g.velocity_channels.crval1 = g.crval1
      ∧ g.velocity_channels.crval2 = g.crval2) := by
  constructor <;>
    · by_cases hb : g.freq_channel_mode <;>
        simp [DataCube.freq_channels, DataCube.velocity_channels, hb]

/-- C2 (amended): for an unpadded grid whose array has the logical shape and
positive pad amounts px, py >= 1, add_pad succeeds, shifts the reference pixel
by (px, py) so that the world coordinate of every original pixel is unchanged,
records the pad, and drop_pad then restores the original array contents, the
reference pixel, the array extents and a zero recorded pad exactly. -/
theorem C2_pad_roundtrip (g : DataCube) (px py : Nat)
    (hx : 1 ≤ px) (hy : 1 ≤ py)
    (hdx : g.dimX = g.n_px_x) (hdy : g.dimY = g.n_px_y)
    (_hpx : g.padx = 0) (_hpy : g.pady = 0) :
    ∃ g1, g.add_pad px py = some g1
      ∧ g1.crpix1 = g.crpix1 + px
      ∧ g1.crpix2 = g.crpix2 + py
      ∧ g1.padx = px ∧ g1.pady = py
      ∧ (∀ p : ℚ, g1.worldX (p + px) = g.worldX p)
      ∧ (∀ p : ℚ, g1.worldY (p + py) = g.worldY p)
      ∧ (∀ i j k, i < g.n_px_x → j < g.n_px_y →
          g1.arr (i + px) (j + py) k = g.arr i j k)
      ∧ g1.drop_pad.padx = 0 ∧ g1.drop_pad.pady = 0
      ∧ g1.drop_pad.crpix1 = g.crpix1 ∧ g1.drop_pad.crpix2 = g.crpix2
      ∧ g1.drop_pad.dimX = g.dimX ∧ g1.drop_pad.dimY = g.dimY
      ∧ (∀ i j k, i < g.n_px_x → j < g.n_px_y →
          g1.drop_pad.arr i j k = g.arr i j k) := by
  have hxne : px ≠ 0 := by omega
  have hyne : py ≠ 0 := by omega
  have harr : ∀ i j k, i < g.n_px_x → j < g.n_px_y →
      (if px ≤ i + px ∧ i + px < px + g.n_px_x ∧ py ≤ j + py ∧ j + py < py + g.n_px_y then
        g.arr (if g.dimX = 1 then 0 else i + px - px)
          (if g.dimY = 1 then 0 else j + py - py) k
      else 0) = g.arr i j k := by
    intro i j k hi hj
    rw [if_pos ⟨Nat.le_add_left px i, by omega, Nat.le_add_left py j, by omega⟩]
    have e1 : (if g.dimX = 1 then 0 else i + px - px) = i := by
      by_cases h1 : g.dimX = 1
      · rw [if_pos h1]
        omega
      · rw [if_neg h1]
        omega
    have e2 : (if g.dimY = 1 then 0 else j + py - py) = j := by
      by_cases h1 : g.dimY = 1
      · rw [if_pos h1]
        omega
      · rw [if_neg h1]
        omega
    rw [e1, e2]
  have happ : g.add_pad px py = some
      { g with
        arr := fun i j k =>
          if px ≤ i ∧ i < px + g.n_px_x ∧ py ≤ j ∧ j < py + g.n_px_y then
            g.arr (if g.dimX = 1 then 0 else i - px)
              (if g.dimY = 1 then 0 else j - py) k
          else 0
        dimX := g.n_px_x + 2 * px
        dimY := g.n_px_y + 2 * py
        crpix1 := g.crpix1 + px
        crpix2 := g.crpix2 + py
        padx := px
        pady := py } := by
    unfold DataCube.add_pad
    simp only [hxne, hyne, if_false, ite_false, Nat.add_sub_cancel]
    rw [if_pos ⟨Or.inl (by omega), Or.inl (by omega)⟩]
  refine ⟨_, happ, rfl, rfl, rfl, rfl, ?_, ?_, ?_, ?_, ?_, ?_, ?_, ?_, ?_, ?_⟩
  · intro p
    simp only [DataCube.worldX]
    ring
  · intro p
    simp only [DataCube.worldY]
    ring
  · intro i j k hi hj
    exact harr i j k hi hj
  · simp [DataCube.drop_pad, hxne]
  · simp [DataCube.drop_pad, hxne, hyne]
  · simp [DataCube.drop_pad, hxne]
  · simp [DataCube.drop_pad, hxne, hyne]
  · simp [DataCube.drop_pad, hxne, hyne]
    omega
  · simp [DataCube.drop_pad, hxne, hyne]
    omega
  · intro i j k hi hj
    simp only [DataCube.drop_pad, hxne, hyne, if_false, ite_false, and_false,
      false_and]
    exact harr i j k hi hj

/-- C2 counterexample: on a freshly constructed 2 x 2 x 2 grid the pad amount
(0, 1) makes the slice new[0:-0, 1:-1, ...] empty along the first axis, so the
numpy assignment of the old 2 x 2 data cannot broadcast and raises: there is
no resulting grid, hence nothing is restored. -/
theorem C2_counterexample :
    ¬ ∃ g1, (DataCube.construct 2 2 2 1 4000 0 0 0).add_pad 0 1 = some g1 := by
  rintro ⟨g1, h⟩
  have h2 : (none : Option DataCube) = some g1 := h
  exact Option.noConfusion h2

/-- Concrete unpadded grid used to witness the pad round trip. -/
def gC2 : DataCube := DataCube.construct 2 3 2 1 4000 0 0 0

/-- C2 witness: the pad round trip instantiated with pad (1, 2) on a concrete
2 x 3 x 2 grid. -/
theorem C2_pad_roundtrip_witness :
    (1 ≤ 1 ∧ 1 ≤ 2 ∧ gC2.dimX = gC2.n_px_x ∧ gC2.dimY = gC2.n_px_y
      ∧ gC2.padx = 0 ∧ gC2.pady = 0)
    ∧ (∃ g1, gC2.add_pad 1 2 = some g1
      ∧ g1.crpix1 = gC2.crpix1 + 1
      ∧ g1.crpix2 = gC2.crpix2 + 2
      ∧ g1.padx = 1 ∧ g1.pady = 2
      ∧ (∀ p : ℚ, g1.worldX (p + 1) = gC2.worldX p)
      ∧ (∀ p : ℚ, g1.worldY (p + 2) = gC2.worldY p)
      ∧ (∀ i j k, i < gC2.n_px_x → j < gC2.n_px_y →
          g1.arr (i + 1) (j + 2) k = gC2.arr i j k)
      ∧ g1.drop_pad.padx = 0 ∧ g1.drop_pad.pady = 0
      ∧ g1.drop_pad.crpix1 = gC2.crpix1 ∧ g1.drop_pad.crpix2 = gC2.crpix2
      ∧ g1.drop_pad.dimX = gC2.dimX ∧ g1.drop_pad.dimY = gC2.dimY
      ∧ (∀ i j k, i < gC2.n_px_x → j < gC2.n_px_y →
          g1.drop_pad.arr i j k = gC2.arr i j k)) :=
  ⟨⟨le_refl 1, by norm_num, rfl, rfl, rfl, rfl⟩,
    C2_pad_roundtrip gC2 1 2 (le_refl 1) (by norm_num) rfl rfl rfl rfl⟩

/-- C4 (amended): spatial_slices is, in every grid state (padded included), a
view of the live array giving one 2-D spatial plane per channel; spectra is a
view of the live array giving one 1-D spectrum per spatial pixel (flattened
spatial index, sequential over channels) whenever the array still has the
logical unpadded shape, but it fails (numpy reshape size mismatch) as soon as
a pad is applied, because it reshapes with the stale logical pixel counts. -/
theorem C4_iteration_views (g : DataCube)
    (hdx : g.dimX = g.n_px_x) (hdy : g.dimY = g.n_px_y) :
    (∀ h2 : DataCube, ∀ c i j, h2.spatial_slices c i j = h2.arr i j c)
    ∧ ∃ f, g.spectra = some f
        ∧ ∀ i j k, j < g.n_px_y → k < g.n_channels →
            f (i * g.n_px_y + j) k = g.arr i j k := by
  refine ⟨fun h2 c i j => rfl, ?_⟩
  unfold DataCube.spectra
  rw [hdx, hdy, if_pos rfl]
  refine ⟨_, rfl, ?_⟩
  intro i j k hj hk
  have hnc : 0 < g.n_channels := by omega
  have hny : 0 < g.n_px_y := by omega
  have hM : 0 < g.n_px_y * g.n_channels := Nat.mul_pos hny hnc
  have hlt : j * g.n_channels + k < g.n_px_y * g.n_channels := by
    calc j * g.n_channels + k < j * g.n_channels + g.n_channels := by omega
      _ = (j + 1) * g.n_channels := by ring
      _ ≤ g.n_px_y * g.n_channels := Nat.mul_le_mul_right _ (by omega)
  have e1 : ((i * g.n_px_y + j) * g.n_channels + k) / (g.n_px_y * g.n_channels) = i := by
    have h1 : (i * g.n_px_y + j) * g.n_channels + k
        = g.n_px_y * g.n_channels * i + (j * g.n_channels + k) := by ring
    rw [h1, Nat.mul_add_div hM, Nat.div_eq_of_lt hlt, Nat.add_zero]
  have e2 : (((i * g.n_px_y + j) * g.n_channels + k) / g.n_channels) % g.n_px_y = j := by
    have h1 : (i * g.n_px_y + j) * g.n_channels + k
        = g.n_channels * (i * g.n_px_y + j) + k := by ring
    rw [h1, Nat.mul_add_div hnc, Nat.div_eq_of_lt hk, Nat.add_zero]
    have h2 : i * g.n_px_y + j = j + i * g.n_px_y := by ring
    rw [h2, Nat.add_mul_mod_self_right, Nat.mod_eq_of_lt hj]
  have e3 : ((i * g.n_px_y + j) * g.n_channels + k) % g.n_channels = k := by
    have h1 : (i * g.n_px_y + j) * g.n_channels + k
        = k + (i * g.n_px_y + j) * g.n_channels := by ring
    rw [h1, Nat.add_mul_mod_self_right, Nat.mod_eq_of_lt hk]
  rw [e1, e2, e3]

/-- C4 counterexample: a freshly constructed 2 x 2 x 2 grid yields spectra, but
after add_pad((1, 1)) the reshape of the now 4 x 4 x 2 array with the stale
logical counts (2 * 2, 2) has mismatched element counts, so spectra raises:
the view does not reflect the padded state. -/
theorem C4_counterexample :
    ∃ g1, (DataCube.construct 2 2 2 1 4000 0 0 0).add_pad 1 1 = some g1
      ∧ g1.spectra = none
      ∧ (DataCube.construct 2 2 2 1 4000 0 0 0).spectra ≠ none := by
  refine ⟨_, rfl, rfl, ?_⟩
  intro h
  have h2 : (none : Option (Nat → Nat → ℚ))
      = (DataCube.construct 2 2 2 1 4000 0 0 0).spectra := h.symm
  exact Option.noConfusion h2

/-- Concrete grid used to witness the iteration views. -/
def gC4 : DataCube := DataCube.construct 2 3 2 1 4000 0 0 0

/-- C4 witness: the iteration view law instantiated on a concrete grid. -/
theorem C4_iteration_views_witness :
    (gC4.dimX = gC4.n_px_x ∧ gC4.dimY = gC4.n_px_y)
    ∧ ((∀ h2 : DataCube, ∀ c i j, h2.spatial_slices c i j = h2.arr i j c)
      ∧ ∃ f, gC4.spectra = some f
          ∧ ∀ i j k, j < gC4.n_px_y → k < gC4.n_channels →
              f (i * gC4.n_px_y + j) k = gC4.arr i j k) :=
  ⟨⟨rfl, rfl⟩, C4_iteration_views gC4 rfl rfl⟩

theorem getD_set_self {α : Type} (l : List α) (i : Nat) (v d : α) (h : i < l.length) :
    (l.set i v).getD i d = v := by
  induction l generalizing i with
  | nil => simp at h
  | cons a as ih =>
    cases i with
    | zero => simp
    | succ n => simpa using ih n (by simpa using h)

theorem getD_set_ne {α : Type} (l : List α) (i j : Nat) (v : α) (d : α) (h : i ≠ j) :
    (l.set i v).getD j d = l.getD j d := by
  induction l generalizing i j with
  | nil => simp
  | cons a as ih =>
    cases i with
    | zero =>
      cases j with
      | zero => exact absurd rfl h
      | succ m => simp
    | succ n =>
      cases j with
      | zero => simp
      | succ m => simpa using ih n m (by omega)

/-- The wcs axis-calibration record of a DataCube, a mutable object that the
code mutates in place (crpix/cdelt/crval entries plus the spectral label and
unit). -/
structure Wcs where
  crpix1 : ℚ
  crpix2 : ℚ
  crpix3 : ℚ
  cdelt1 : ℚ
  cdelt2 : ℚ
  cdelt3 : ℚ
  crval1 : ℚ
  crval2 : ℚ
  crval3 : ℚ
  ctype3 : SpecCType
  unit3 : SpecUnit
deriving DecidableEq

/-- Mutable object store: the sample arrays and wcs records that DataCube
instances hold by reference.  This refined model of _datacube.py makes python's
reference semantics explicit, which is what C3 (aliasing of copies) is about. -/
structure Heap where
  arrs : List (Nat → Nat → Nat → ℚ)
  wcss : List Wcs

/-- A DataCube instance holding its array and wcs by reference into a `Heap`;
the remaining attributes are plain per-instance values. -/
structure RCube where
  n_px_x : Nat
  n_px_y : Nat
  n_channels : Nat
  px_size : ℚ
  channel_width : ℚ
  velocity_centre : ℚ
  ra : ℚ
  dec : ℚ
  padx : Nat
  pady : Nat
  dimX : Nat
  dimY : Nat
  arrRef : Nat
  wcsRef : Nat
  freq_channel_mode : Bool

/-- Fallback wcs for out of range reads (never reached under the validity
hypotheses). -/
def defaultWcs : Wcs :=
  ⟨0, 0, 0, 0, 0, 0, 0, 0, 0, SpecCType.veloObs, SpecUnit.mps⟩

/-- The sample array a cube instance currently references. -/
def Heap.arrAt (h : Heap) (g : RCube) : Nat → Nat → Nat → ℚ :=
  h.arrs.getD g.arrRef (fun _ _ _ => 0)

/-- The wcs record a cube instance currently references. -/
def Heap.wcsAt (h : Heap) (g : RCube) : Wcs :=
  h.wcss.getD g.wcsRef defaultWcs

/-- The wcs record DataCube.__init__ builds. -/
def mkWcs (nx ny nc : Nat) (px ch vc ra0 dec0 : ℚ) : Wcs :=
  ⟨(nx : ℚ) / 2 + 1 / 2, (ny : ℚ) / 2 + 1 / 2, ((nc / 2 : Nat) : ℚ),
    -px, px, ch, ra0, dec0, vc, SpecCType.veloObs, SpecUnit.mps⟩

/-- DataCube.__init__ in the reference model: allocates a fresh zero array and
a fresh wcs record on the heap and returns the instance referencing them. -/
def RCube.construct (h : Heap) (nx ny nc : Nat) (px ch vc ra0 dec0 : ℚ) :
    Heap × RCube :=
  (⟨h.arrs ++ [fun _ _ _ => 0], h.wcss ++ [mkWcs nx ny nc px ch vc ra0 dec0]⟩,
    { n_px_x := nx
      n_px_y := ny
      n_channels := nc
      px_size := px
      channel_width := ch
      velocity_centre := vc
      ra := ra0
      dec := dec0
      padx := 0
      pady := 0
      dimX := nx
      dimY := ny
      arrRef := h.arrs.length
      wcsRef := h.wcss.length
      freq_channel_mode := false })

/-- DataCube.copy: builds a fresh DataCube(...) with the same construction
parameters, copies the pads over, rebinds the fresh instance's wcs attribute
to self's wcs object (a shared reference, not a copied record), and rebinds
its array attribute to self._array.copy() (fresh storage holding the same
contents, here written into the freshly allocated slot). -/
def RCube.copy (h : Heap) (g : RCube) : Heap × RCube :=
  let hf := RCube.construct h g.n_px_x g.n_px_y g.n_channels g.px_size
    g.channel_width g.velocity_centre g.ra g.dec
  (⟨hf.1.arrs.set hf.2.arrRef (h.arrAt g), hf.1.wcss⟩,
    { hf.2 with
      padx := g.padx
      pady := g.pady
      dimX := g.dimX
      dimY := g.dimY
      wcsRef := g.wcsRef })

/-- The in-place wcs mutation freq_channels performs on the wcs record. -/
def Wcs.toFreq (w : Wcs) : Wcs :=
  { w with
    cdelt3 := |convert_to_Hz w.cdelt3 - convert_to_Hz 0|
    crval3 := convert_to_Hz w.crval3
    ctype3 := SpecCType.freqObs
    unit3 := SpecUnit.hz }

/-- DataCube.freq_channels in the reference model: mutates the referenced wcs
record in place and flips the per-instance mode flag. -/
def RCube.freq_channels (h : Heap) (g : RCube) : Heap × RCube :=
  if g.freq_channel_mode then (h, g)
  else
    (⟨h.arrs, h.wcss.set g.wcsRef (h.wcsAt g).toFreq⟩,
      { g with freq_channel_mode := true })

/-- An in-place write to one element of the sample array a cube references
(the mutation deposition performs). -/
def RCube.writeArr (h : Heap) (g : RCube) (i j k : Nat) (v : ℚ) : Heap :=
  ⟨h.arrs.set g.arrRef
      (fun i' j' k' => if i' = i ∧ j' = j ∧ k' = k then v else h.arrAt g i' j' k'),
    h.wcss⟩

/-- C3 (amended): copy() hands back an instance whose sample array is a fresh,
independently owned copy with identical contents — writes through either
instance's array never affect the other — but whose axis-calibration record
(wcs) is the very same heap object as the original's, a shared reference with
identical contents rather than an independent copy. -/
theorem C3_copy_semantics (h : Heap) (g : RCube)
    (ha : g.arrRef < h.arrs.length) :
    (RCube.copy h g).1.arrAt (RCube.copy h g).2 = h.arrAt g
    ∧ (RCube.copy h g).1.arrAt g = h.arrAt g
    ∧ (RCube.copy h g).2.arrRef ≠ g.arrRef
    ∧ (∀ i j k v,
        (RCube.writeArr (RCube.copy h g).1 (RCube.copy h g).2 i j k v).arrAt g
          = (RCube.copy h g).1.arrAt g)
    ∧ (∀ i j k v,
        (RCube.writeArr (RCube.copy h g).1 g i j k v).arrAt (RCube.copy h g).2
          = (RCube.copy h g).1.arrAt (RCube.copy h g).2)
    ∧ (RCube.copy h g).2.wcsRef = g.wcsRef
    ∧ (RCube.copy h g).1.wcsAt (RCube.copy h g).2 = (RCube.copy h g).1.wcsAt g := by
  refine ⟨?_, ?_, ?_, ?_, ?_, rfl, rfl⟩
  · simp only [RCube.copy, RCube.construct, Heap.arrAt]
    exact getD_set_self _ _ _ _ (by simp)
  · simp only [RCube.copy, RCube.construct, Heap.arrAt]
    rw [getD_set_ne _ _ _ _ _ (by omega)]
    exact List.getD_append _ _ _ _ ha
  · simp only [RCube.copy, RCube.construct]
    omega
  · intro i j k v
    simp only [RCube.copy, RCube.construct, RCube.writeArr, Heap.arrAt]
    rw [getD_set_ne _ _ _ _ _ (by omega)]
  · intro i j k v
    simp only [RCube.copy, RCube.construct, RCube.writeArr, Heap.arrAt]
    rw [getD_set_ne _ _ _ _ _ (by omega)]

/-- Heap and instance freshly constructed (the original grid of C3). -/
def heapC3a : Heap × RCube := RCube.construct ⟨[], []⟩ 2 2 2 1 4000 0 0 0

/-- The copy of the original grid. -/
def heapC3b : Heap × RCube := RCube.copy heapC3a.1 heapC3a.2

/-- The state after converting the copy to frequency mode. -/
def heapC3c : Heap × RCube := RCube.freq_channels heapC3b.1 heapC3b.2

/-- C3 counterexample: converting the copy to frequency mode rewrites the
spectral reference value inside the shared wcs record, so the original grid's
calibration changes (its reference value becomes the HI rest frequency instead
of the original 0 m/s): mutating the copy's calibration does affect the
original, because copy() assigns the wcs by reference. -/
theorem C3_counterexample :
    (heapC3c.1.wcsAt heapC3a.2).crval3 ≠ (heapC3a.1.wcsAt heapC3a.2).crval3 := by
  have h1 : (heapC3c.1.wcsAt heapC3a.2).crval3 = convert_to_Hz 0 := rfl
  have h2 : (heapC3a.1.wcsAt heapC3a.2).crval3 = 0 := rfl
  rw [h1, h2]
  norm_num [convert_to_Hz, HIfreq, cLight]

/-- C3 witness: the copy semantics instantiated on the concrete fresh grid. -/
theorem C3_copy_semantics_witness :
    heapC3a.2.arrRef < heapC3a.1.arrs.length
    ∧ ((RCube.copy heapC3a.1 heapC3a.2).1.arrAt (RCube.copy heapC3a.1 heapC3a.2).2
        = heapC3a.1.arrAt heapC3a.2
      ∧ (RCube.copy heapC3a.1 heapC3a.2).1.arrAt heapC3a.2 = heapC3a.1.arrAt heapC3a.2
      ∧ (RCube.copy heapC3a.1 heapC3a.2).2.arrRef ≠ heapC3a.2.arrRef
      ∧ (∀ i j k v,
          (RCube.writeArr (RCube.copy heapC3a.1 heapC3a.2).1
              (RCube.copy heapC3a.1 heapC3a.2).2 i j k v).arrAt heapC3a.2
            = (RCube.copy heapC3a.1 heapC3a.2).1.arrAt heapC3a.2)
      ∧ (∀ i j k v,
          (RCube.writeArr (RCube.copy heapC3a.1 heapC3a.2).1 heapC3a.2 i j k v).arrAt
              (RCube.copy heapC3a.1 heapC3a.2).2
            = (RCube.copy heapC3a.1 heapC3a.2).1.arrAt (RCube.copy heapC3a.1 heapC3a.2).2)
      ∧ (RCube.copy heapC3a.1 heapC3a.2).2.wcsRef = heapC3a.2.wcsRef
      ∧ (RCube.copy heapC3a.1 heapC3a.2).1.wcsAt (RCube.copy heapC3a.1 heapC3a.2).2
          = (RCube.copy heapC3a.1 heapC3a.2).1.wcsAt heapC3a.2) :=
  ⟨by decide, C3_copy_semantics heapC3a.1 heapC3a.2 (by decide)⟩

/- Source-geometry layer.  The modules martini.sources._L_align,
   martini.sources._cartesian_translation and martini.sources.sph_source are
   not present under src/ (only src/tests/test_sources.py exercises them), so
   the definitions below are modelled from the spec (sections 4.1 to 4.3) and
   from the behaviour the repository's tests pin down, as indicated on each
   definition. -/

/-- A 3-vector of rationals (positions, velocities, axes). -/
structure Vec3 where
  x : ℚ
  y : ℚ
  z : ℚ
deriving DecidableEq

/-- Componentwise sum. -/
def Vec3.add (a b : Vec3) : Vec3 := ⟨a.x + b.x, a.y + b.y, a.z + b.z⟩

/-- Componentwise difference. -/
def Vec3.sub (a b : Vec3) : Vec3 := ⟨a.x - b.x, a.y - b.y, a.z - b.z⟩

/-- Scalar multiple. -/
def Vec3.smul (c : ℚ) (a : Vec3) : Vec3 := ⟨c * a.x, c * a.y, c * a.z⟩

/-- Dot product. -/
def Vec3.dot (a b : Vec3) : ℚ := a.x * b.x + a.y * b.y + a.z * b.z

/-- Cross product. -/
def Vec3.cross (a b : Vec3) : Vec3 :=
  ⟨a.y * b.z - a.z * b.y, a.z * b.x - a.x * b.z, a.x * b.y - a.y * b.x⟩

/-- Squared euclidean norm. -/
def Vec3.normSq (a : Vec3) : ℚ := a.dot a

/-- A 3 x 3 matrix of rationals, row major. -/
structure Mat3 where
  m11 : ℚ
  m12 : ℚ
  m13 : ℚ
  m21 : ℚ
  m22 : ℚ
  m23 : ℚ
  m31 : ℚ
  m32 : ℚ
  m33 : ℚ
deriving DecidableEq

/-- Matrix applied to a column vector. -/
def Mat3.mulVec (M : Mat3) (v : Vec3) : Vec3 :=
  ⟨M.m11 * v.x + M.m12 * v.y + M.m13 * v.z,
    M.m21 * v.x + M.m22 * v.y + M.m23 * v.z,
    M.m31 * v.x + M.m32 * v.y + M.m33 * v.z⟩

/-- Row vector applied to a matrix (numpy v.dot(M)). -/
def Mat3.vecMul (v : Vec3) (M : Mat3) : Vec3 :=
  ⟨v.x * M.m11 + v.y * M.m21 + v.z * M.m31,
    v.x * M.m12 + v.y * M.m22 + v.z * M.m32,
    v.x * M.m13 + v.y * M.m23 + v.z * M.m33⟩

/-- Matrix transpose. -/
def Mat3.transpose (M : Mat3) : Mat3 :=
  ⟨M.m11, M.m21, M.m31, M.m12, M.m22, M.m32, M.m13, M.m23, M.m33⟩

/-- Matrix product. -/
def Mat3.mul (A B : Mat3) : Mat3 :=
  ⟨A.m11 * B.m11 + A.m12 * B.m21 + A.m13 * B.m31,
    A.m11 * B.m12 + A.m12 * B.m22 + A.m13 * B.m32,
    A.m11 * B.m13 + A.m12 * B.m23 + A.m13 * B.m33,
    A.m21 * B.m11 + A.m22 * B.m21 + A.m23 * B.m31,
    A.m21 * B.m12 + A.m22 * B.m22 + A.m23 * B.m32,
    A.m21 * B.m13 + A.m22 * B.m23 + A.m23 * B.m33,
    A.m31 * B.m11 + A.m32 * B.m21 + A.m33 * B.m31,
    A.m31 * B.m12 + A.m32 * B.m22 + A.m33 * B.m32,
    A.m31 * B.m13 + A.m32 * B.m23 + A.m33 * B.m33⟩

/-- Identity matrix. -/
def Mat3.one : Mat3 := ⟨1, 0, 0, 0, 1, 0, 0, 0, 1⟩

/-- Entrywise sum. -/
def Mat3.add (A B : Mat3) : Mat3 :=
  ⟨A.m11 + B.m11, A.m12 + B.m12, A.m13 + B.m13,
    A.m21 + B.m21, A.m22 + B.m22, A.m23 + B.m23,
    A.m31 + B.m31, A.m32 + B.m32, A.m33 + B.m33⟩

/-- Entrywise scalar multiple. -/
def Mat3.smul (c : ℚ) (A : Mat3) : Mat3 :=
  ⟨c * A.m11, c * A.m12, c * A.m13, c * A.m21, c * A.m22, c * A.m23,
    c * A.m31, c * A.m32, c * A.m33⟩

/-- Exact rational square root: some r (with r >= 0, r * r = q) when q is the
square of a rational, none otherwise.  Stands in for the floating point square
root used in normalisation; it is exact on every configuration the claims
exercise. -/
def ratSqrt (q : ℚ) : Option ℚ :=
  if 0 ≤ q ∧ ((Nat.sqrt q.num.toNat : Int)) ^ 2 = q.num ∧ (Nat.sqrt q.den) ^ 2 = q.den
  then some ((Nat.sqrt q.num.toNat : ℚ) / (Nat.sqrt q.den : ℚ))
  else none

/-- ratSqrt recovers a positive rational from its square. -/
theorem ratSqrt_mul_self (q : ℚ) (h : 0 < q) : ratSqrt (q * q) = some q := by
  have hnum : (q * q).num = q.num * q.num := Rat.mul_self_num q
  have hden : (q * q).den = q.den * q.den := Rat.mul_self_den q
  have hqn : 0 < q.num := Rat.num_pos.2 h
  have hn : (q * q).num.toNat = q.num.toNat * q.num.toNat := by
    rw [hnum,
      show q.num * q.num = ((q.num.toNat * q.num.toNat : Nat) : Int) by
        rw [Nat.cast_mul, Int.toNat_of_nonneg (le_of_lt hqn)],
      Int.toNat_natCast]
  have hs1 : Nat.sqrt (q * q).num.toNat = q.num.toNat := by
    rw [hn, Nat.sqrt_eq]
  have hs2 : Nat.sqrt (q * q).den = q.den := by
    rw [hden, Nat.sqrt_eq]
  unfold ratSqrt
  rw [if_pos]
  · rw [hs1, hs2]
    have hcast : ((q.num.toNat : Int) : ℚ) = (q.num : ℚ) := by
      rw [Int.toNat_of_nonneg (le_of_lt hqn)]
    rw [show ((q.num.toNat : ℚ)) = ((q.num : ℚ)) by push_cast at hcast ⊢; exact hcast]
    exact congrArg some (Rat.num_div_den q)
  · refine ⟨mul_self_nonneg q, ?_, ?_⟩
    · rw [hs1, hnum]
      rw [show ((q.num.toNat : Int)) = q.num from Int.toNat_of_nonneg (le_of_lt hqn)]
      ring
    · rw [hs2, hden]
      ring

/-- Normalisation of a vector (direction of L): defined when the norm is an
exact rational and nonzero. -/
def Vec3.normalize (a : Vec3) : Option Vec3 :=
  (ratSqrt a.normSq).bind fun n => if n = 0 then none else some (Vec3.smul (1 / n) a)

/-- The three Cartesian target axes accepted by L_align's Laxis argument. -/
inductive Axis
  | x
  | y
  | z
deriving DecidableEq

/-- Unit vector of a target axis. -/
def Axis.vec : Axis → Vec3
  | Axis.x => ⟨1, 0, 0⟩
  | Axis.y => ⟨0, 1, 0⟩
  | Axis.z => ⟨0, 0, 1⟩

/-- Input layout of the coordinate arrays: particles along the leading axis
(shape (n, 3)) or along the trailing axis (shape (3, n)). -/
inductive Layout
  | particlesFirst
  | particlesLast
deriving DecidableEq

/-- One particle: mass, position, velocity. -/
structure Particle where
  m : ℚ
  r : Vec3
  v : Vec3
deriving DecidableEq

/-- Total mass of an ensemble. -/
def totalMass (ps : List Particle) : ℚ := (ps.map Particle.m).sum

/-- Mass-weighted centroid of the positions. -/
def centroidPos (ps : List Particle) : Vec3 :=
  Vec3.smul (1 / totalMass ps)
    ((ps.map fun p => Vec3.smul p.m p.r).foldr Vec3.add ⟨0, 0, 0⟩)

/-- Mass-weighted centroid of the velocities. -/
def centroidVel (ps : List Particle) : Vec3 :=
  Vec3.smul (1 / totalMass ps)
    ((ps.map fun p => Vec3.smul p.m p.v).foldr Vec3.add ⟨0, 0, 0⟩)

/-- Net angular momentum of the ensemble about its mass-weighted centroid:
L = sum of m_i ((r_i - rc) x (v_i - vc)). -/
def Ltot (ps : List Particle) : Vec3 :=
  (ps.map fun p =>
      Vec3.smul p.m (Vec3.cross (Vec3.sub p.r (centroidPos ps))
        (Vec3.sub p.v (centroidVel ps)))).foldr
    Vec3.add ⟨0, 0, 0⟩

/-- Rotation carrying unit vector a onto unit vector b, the deterministic
convention chosen for the unconstrained in-plane degree of freedom:
R = I + K + K^2 / (1 + a.b) with K the cross-product matrix of a x b; none in
the degenerate antiparallel case a.b = -1. -/
def rotTo (a b : Vec3) : Option Mat3 :=
  if 1 + a.dot b = 0 then none
  else
    some
      (Mat3.add
        (Mat3.add Mat3.one
          ⟨0, -(a.cross b).z, (a.cross b).y,
            (a.cross b).z, 0, -(a.cross b).x,
            -(a.cross b).y, (a.cross b).x, 0⟩)
        (Mat3.smul (1 / (1 + a.dot b))
          (Mat3.mul
            ⟨0, -(a.cross b).z, (a.cross b).y,
              (a.cross b).z, 0, -(a.cross b).x,
              -(a.cross b).y, (a.cross b).x, 0⟩
            ⟨0, -(a.cross b).z, (a.cross b).y,
              (a.cross b).z, 0, -(a.cross b).x,
              -(a.cross b).y, (a.cross b).x, 0⟩)))

/-- Modelled from the spec: L_align of martini.sources._L_align (module absent
from src/).  Computes the ensemble's net angular momentum about the
mass-weighted centroid, normalises it, and returns the rotation carrying that
direction onto the requested Cartesian axis; per the repository's tests the
returned matrix acts on column vectors for particles-last input (M.dot(v))
and on row vectors for particles-first input (v.dot(M)), the two being
transposes of one another. -/
def L_align (layout : Layout) (ps : List Particle) (ax : Axis) : Option Mat3 :=
  (Ltot ps).normalize.bind fun lhat =>
    (rotTo lhat ax.vec).map fun R =>
      match layout with
      | Layout.particlesLast => R
      | Layout.particlesFirst => R.transpose

/-- Normalising a vector lying along +z with positive component gives the unit
z vector (the norm is exactly rational there). -/
theorem normalize_zaxis (l : ℚ) (h : 0 < l) :
    Vec3.normalize ⟨0, 0, l⟩ = some ⟨0, 0, 1⟩ := by
  have h1 : (Vec3.mk 0 0 l).normSq = l * l := by
    simp [Vec3.normSq, Vec3.dot]
  unfold Vec3.normalize
  rw [h1, ratSqrt_mul_self l h]
  rw [Option.some_bind, if_neg h.ne']
  simp [Vec3.smul, Vec3.mk.injEq, one_div, inv_mul_cancel₀ h.ne']

/-- C5: for any ensemble whose net angular momentum about its centroid points
along +z (a planar ensemble rotating right-handed about +z), the alignment
rotation maps +z onto the requested target axis for all three axes, in both
the particles-first (row vector) and particles-last (column vector) layouts. -/
theorem C5_L_align_axes (ps : List Particle) (l : ℚ)
    (hL : Ltot ps = ⟨0, 0, l⟩) (hpos : 0 < l) :
    ∀ ax : Axis,
      (∃ M, L_align Layout.particlesLast ps ax = some M
        ∧ M.mulVec ⟨0, 0, 1⟩ = ax.vec)
      ∧ (∃ M, L_align Layout.particlesFirst ps ax = some M
        ∧ Mat3.vecMul ⟨0, 0, 1⟩ M = ax.vec) := by
  intro ax
  have hn : (Ltot ps).normalize = some ⟨0, 0, 1⟩ := by
    rw [hL]
    exact normalize_zaxis l hpos
  cases ax with
  | x =>
    have hr : rotTo ⟨0, 0, 1⟩ ⟨1, 0, 0⟩ = some ⟨0, 0, 1, 0, 1, 0, -1, 0, 0⟩ := by
      rw [rotTo, if_neg (by norm_num [Vec3.dot])]
      norm_num [Vec3.dot, Vec3.cross, Mat3.add, Mat3.one, Mat3.smul, Mat3.mul,
        Mat3.mk.injEq]
    constructor
    · exact ⟨⟨0, 0, 1, 0, 1, 0, -1, 0, 0⟩, by simp [L_align, hn, Axis.vec, hr],
        by norm_num [Mat3.mulVec, Axis.vec, Vec3.mk.injEq]⟩
    · exact ⟨⟨0, 0, -1, 0, 1, 0, 1, 0, 0⟩,
        by simp [L_align, hn, Axis.vec, hr, Mat3.transpose],
        by norm_num [Mat3.vecMul, Axis.vec, Vec3.mk.injEq]⟩
  | y =>
    have hr : rotTo ⟨0, 0, 1⟩ ⟨0, 1, 0⟩ = some ⟨1, 0, 0, 0, 0, 1, 0, -1, 0⟩ := by
      rw [rotTo, if_neg (by norm_num [Vec3.dot])]
      norm_num [Vec3.dot, Vec3.cross, Mat3.add, Mat3.one, Mat3.smul, Mat3.mul,
        Mat3.mk.injEq]
    constructor
    · exact ⟨⟨1, 0, 0, 0, 0, 1, 0, -1, 0⟩, by simp [L_align, hn, Axis.vec, hr],
        by norm_num [Mat3.mulVec, Axis.vec, Vec3.mk.injEq]⟩
    · exact ⟨⟨1, 0, 0, 0, 0, -1, 0, 1, 0⟩,
        by simp [L_align, hn, Axis.vec, hr, Mat3.transpose],
        by norm_num [Mat3.vecMul, Axis.vec, Vec3.mk.injEq]⟩
  | z =>
    have hr : rotTo ⟨0, 0, 1⟩ ⟨0, 0, 1⟩ = some ⟨1, 0, 0, 0, 1, 0, 0, 0, 1⟩ := by
      rw [rotTo, if_neg (by norm_num [Vec3.dot])]
      norm_num [Vec3.dot, Vec3.cross, Mat3.add, Mat3.one, Mat3.smul, Mat3.mul,
        Mat3.mk.injEq]
    constructor
    · exact ⟨⟨1, 0, 0, 0, 1, 0, 0, 0, 1⟩, by simp [L_align, hn, Axis.vec, hr],
        by norm_num [Mat3.mulVec, Axis.vec, Vec3.mk.injEq]⟩
    · exact ⟨⟨1, 0, 0, 0, 1, 0, 0, 0, 1⟩,
        by simp [L_align, hn, Axis.vec, hr, Mat3.transpose],
        by norm_num [Mat3.vecMul, Axis.vec, Vec3.mk.injEq]⟩

/-- The four-particle planar windmill of the repository's test, rotating
right-handed about +z with unit masses. -/
def psC5 : List Particle :=
  [⟨1, ⟨1, 0, 0⟩, ⟨0, 1, 0⟩⟩, ⟨1, ⟨0, 1, 0⟩, ⟨-1, 0, 0⟩⟩,
    ⟨1, ⟨-1, 0, 0⟩, ⟨0, -1, 0⟩⟩, ⟨1, ⟨0, -1, 0⟩, ⟨1, 0, 0⟩⟩]

/-- C5 witness: the alignment law instantiated on the concrete windmill
ensemble with target axis x. -/
theorem C5_L_align_axes_witness :
    Ltot psC5 = ⟨0, 0, 4⟩ ∧ (0 : ℚ) < 4
    ∧ ((∃ M, L_align Layout.particlesLast psC5 Axis.x = some M
        ∧ M.mulVec ⟨0, 0, 1⟩ = Axis.x.vec)
      ∧ (∃ M, L_align Layout.particlesFirst psC5 Axis.x = some M
        ∧ Mat3.vecMul ⟨0, 0, 1⟩ M = Axis.x.vec)) := by
  have hwind : Ltot psC5 = ⟨0, 0, 4⟩ := by
    norm_num [psC5, Ltot, centroidPos, centroidVel, totalMass, Vec3.smul,
      Vec3.sub, Vec3.cross, Vec3.add, Vec3.mk.injEq]
  exact ⟨hwind, by norm_num, C5_L_align_axes psC5 4 hwind (by norm_num) Axis.x⟩

/-- Rotation about the y (declination) axis with given cosine and sine, as the
test writes it: rows (c, 0, s), (0, 1, 0), (-s, 0, c). -/
def R_y_mat (c s : ℚ) : Mat3 := ⟨c, 0, s, 0, 1, 0, -s, 0, c⟩

/-- Rotation about the z (polar) axis with given cosine and sine, as the test
writes it: rows (c, -s, 0), (s, c, 0), (0, 0, 1). -/
def R_z_mat (c s : ℚ) : Mat3 := ⟨c, -s, 0, s, c, 0, 0, 0, 1⟩

/-- The sky rotation R_y(dec) . R_z(-ra); the cosine and sine of ra and dec
enter as exact rational parameters (cos(-ra) = cra, sin(-ra) = -sra). -/
def skyRotmat (cra sra cdec sdec : ℚ) : Mat3 :=
  Mat3.mul (R_y_mat cdec sdec) (R_z_mat cra (-sra))

/-- The rotated +x (line of sight) direction: the row vector e_x applied to
the sky rotation, equal to rotmat transposed applied to the column e_x. -/
def losDirection (cra sra cdec sdec : ℚ) : Vec3 :=
  Mat3.vecMul ⟨1, 0, 0⟩ (skyRotmat cra sra cdec sdec)

/-- Modelled from the spec: the sky projection applied by SPHSource (module
absent from src/): first rotate every position and velocity by
R_y(dec) . R_z(-ra) acting on row vectors (numpy xyz.dot(rotmat)), then
translate every position by distance and every velocity by the systemic
velocity h * 100 * distance + vpeculiar (Hubble law plus peculiar velocity,
distance in Mpc and velocities in km/s) along the rotated +x line of sight
direction. -/
def project_to_sky (hpar cra sra cdec sdec d vpec : ℚ)
    (parts : List (Vec3 × Vec3)) : List (Vec3 × Vec3) :=
  (parts.map fun pv =>
      (Mat3.vecMul pv.1 (skyRotmat cra sra cdec sdec),
        Mat3.vecMul pv.2 (skyRotmat cra sra cdec sdec))).map
    fun pv =>
      (Vec3.add pv.1 (Vec3.smul d (losDirection cra sra cdec sdec)),
        Vec3.add pv.2
          (Vec3.smul (hpar * 100 * d + vpec) (losDirection cra sra cdec sdec)))

/-- C6: with exact cosine/sine pairs for ra and dec, the line of sight
direction is precisely the unit vector pointing at (ra, dec) — components
(cos dec cos ra, cos dec sin ra, sin dec), of unit norm — and the projection
sends every particle (p, v) to (p . rotmat + distance * u,
v . rotmat + (h * 100 * distance + vpeculiar) * u) along that direction u. -/
theorem C6_sky_projection (hpar cra sra cdec sdec d vpec : ℚ)
    (hra : cra ^ 2 + sra ^ 2 = 1) (hdec : cdec ^ 2 + sdec ^ 2 = 1)
    (parts : List (Vec3 × Vec3)) :
    losDirection cra sra cdec sdec = ⟨cdec * cra, cdec * sra, sdec⟩
    ∧ (losDirection cra sra cdec sdec).normSq = 1
    ∧ project_to_sky hpar cra sra cdec sdec d vpec parts
      = parts.map fun pv =>
          (Vec3.add (Mat3.vecMul pv.1 (skyRotmat cra sra cdec sdec))
            (Vec3.smul d ⟨cdec * cra, cdec * sra, sdec⟩),
            Vec3.add (Mat3.vecMul pv.2 (skyRotmat cra sra cdec sdec))
              (Vec3.smul (hpar * 100 * d + vpec) ⟨cdec * cra, cdec * sra, sdec⟩)) := by
  have hu : losDirection cra sra cdec sdec = ⟨cdec * cra, cdec * sra, sdec⟩ := by
    simp only [losDirection, skyRotmat, R_y_mat, R_z_mat, Mat3.mul, Mat3.vecMul,
      Vec3.mk.injEq]
    refine ⟨by ring, by ring, by ring⟩
  refine ⟨hu, ?_, ?_⟩
  · rw [hu]
    simp only [Vec3.normSq, Vec3.dot]
    linear_combination cdec ^ 2 * hra + hdec
  · rw [project_to_sky, List.map_map, hu]
    rfl

/-- C6 witness: the projection law instantiated with the exact pythagorean
pair (3/5, 4/5) for dec, ra = 0, distance 3 Mpc, peculiar velocity 100 km/s,
h = 7/10, on one concrete particle. -/
theorem C6_sky_projection_witness :
    ((1 : ℚ) ^ 2 + 0 ^ 2 = 1 ∧ (3 / 5 : ℚ) ^ 2 + (4 / 5) ^ 2 = 1)
    ∧ (losDirection 1 0 (3 / 5) (4 / 5) = ⟨3 / 5 * 1, 3 / 5 * 0, 4 / 5⟩
      ∧ (losDirection 1 0 (3 / 5) (4 / 5)).normSq = 1
      ∧ project_to_sky (7 / 10) 1 0 (3 / 5) (4 / 5) 3 100
          [(⟨0, 1, 2⟩, ⟨0, 1, 2⟩)]
        = [(⟨0, 1, 2⟩, ⟨0, 1, 2⟩)].map fun pv =>
            (Vec3.add (Mat3.vecMul pv.1 (skyRotmat 1 0 (3 / 5) (4 / 5)))
              (Vec3.smul 3 ⟨3 / 5 * 1, 3 / 5 * 0, 4 / 5⟩),
              Vec3.add (Mat3.vecMul pv.2 (skyRotmat 1 0 (3 / 5) (4 / 5)))
                (Vec3.smul (7 / 10 * 100 * 3 + 100) ⟨3 / 5 * 1, 3 / 5 * 0, 4 / 5⟩))) :=
  ⟨⟨by norm_num, by norm_num⟩,
    C6_sky_projection (7 / 10) 1 0 (3 / 5) (4 / 5) 3 100 (by norm_num) (by norm_num)
      [(⟨0, 1, 2⟩, ⟨0, 1, 2⟩)]⟩

/-- The failures apply_mask can raise: a mask whose length differs from the
particle count (ValueError, LengthMismatchError of the spec) or a mask
selecting no particle (RuntimeError, EmptySelectionError of the spec). -/
inductive MaskError
  | lengthMismatch
  | emptySelection
deriving DecidableEq

/-- A particle ensemble as the masking test exercises it: positions,
velocities, two per-particle array fields (T_g, mHI_g) and one scalar-valued
field (hsm_g). -/
structure Source where
  pos : List Vec3
  vel : List Vec3
  T_g : List ℚ
  mHI_g : List ℚ
  hsm_g : ℚ
deriving DecidableEq

/-- Particle count of the ensemble. -/
def Source.npart (s : Source) : Nat := s.pos.length

/-- Boolean mask filtering of a per-particle array, keeping entries whose mask
value is true, in order. -/
def maskFilter {α : Type} : List Bool → List α → List α
  | true :: ms, a :: as => a :: maskFilter ms as
  | false :: ms, _ :: as => maskFilter ms as
  | _, _ => []

/-- Modelled from the spec: SPHSource.apply_mask (module absent from src/):
rejects a mask whose length differs from the particle count, rejects a mask
selecting no particle, and otherwise filters every per-particle array by the
mask while passing scalar-valued fields through unchanged. -/
def apply_mask (s : Source) (mask : List Bool) : Except MaskError Source :=
  if mask.length ≠ s.npart then Except.error MaskError.lengthMismatch
  else if mask.count true = 0 then Except.error MaskError.emptySelection
  else
    Except.ok
      { pos := maskFilter mask s.pos
        vel := maskFilter mask s.vel
        T_g := maskFilter mask s.T_g
        mHI_g := maskFilter mask s.mHI_g
        hsm_g := s.hsm_g }

/-- The 0-based indices a mask selects, in increasing order. -/
def selIdx : List Bool → List Nat
  | [] => []
  | b :: ms => if b then 0 :: (selIdx ms).map (· + 1) else (selIdx ms).map (· + 1)

/-- Mask filtering equals reading exactly the selected indices, in their
original increasing order. -/
theorem maskFilter_eq_selIdx {α : Type} (d : α) :
    ∀ (mask : List Bool) (xs : List α), xs.length = mask.length →
      maskFilter mask xs = (selIdx mask).map fun i => xs.getD i d := by
  intro mask
  induction mask with
  | nil =>
    intro xs h
    cases xs with
    | nil => rfl
    | cons a as => simp at h
  | cons b ms ih =>
    intro xs h
    cases xs with
    | nil => simp at h
    | cons a as =>
      have hlen : as.length = ms.length := by simpa using h
      cases b with
      | true =>
        have hInd := ih as hlen
        simp [maskFilter, selIdx, hInd, List.map_map, Function.comp]
      | false =>
        have hInd := ih as hlen
        simp [maskFilter, selIdx, hInd, List.map_map, Function.comp]

/-- The selected indices are strictly increasing (original relative order). -/
theorem selIdx_chain (mask : List Bool) : List.Chain' (· < ·) (selIdx mask) := by
  induction mask with
  | nil => simp [selIdx]
  | cons b ms ih =>
    cases b with
    | true =>
      simp only [selIdx, if_true]
      refine List.Chain'.cons' ?_ ?_
      · exact (List.chain'_map_of_chain' _ (fun h => by omega) ih)
      · intro y hy
        rcases List.mem_map.1 (List.mem_of_mem_head? hy) with ⟨i, _, rfl⟩
        omega
    | false =>
      simp only [selIdx, if_false]
      exact List.chain'_map_of_chain' _ (fun h => by omega) ih

/-- C7: with a mask of matching length selecting at least one particle,
apply_mask succeeds and keeps exactly the selected particles' positions,
velocities and array-valued extra fields, read off at the selected indices in
their original strictly increasing order, while the scalar-valued field passes
through unchanged; a mask of any other length fails with the length mismatch
error and a matching-length mask selecting nothing fails with the empty
selection error (the functional embedding returns only the error, so no state
is mutated in the failure cases). -/
theorem C7_apply_mask (s : Source) (mask : List Bool)
    (hlv : s.vel.length = s.npart) (hlT : s.T_g.length = s.npart)
    (hlm : s.mHI_g.length = s.npart)
    (hlen : mask.length = s.npart) (hsel : mask.count true ≠ 0) :
    (∃ s', apply_mask s mask = Except.ok s'
      ∧ s'.pos = (selIdx mask).map (fun i => s.pos.getD i ⟨0, 0, 0⟩)
      ∧ s'.vel = (selIdx mask).map (fun i => s.vel.getD i ⟨0, 0, 0⟩)
      ∧ s'.T_g = (selIdx mask).map (fun i => s.T_g.getD i 0)
      ∧ s'.mHI_g = (selIdx mask).map (fun i => s.mHI_g.getD i 0)
      ∧ s'.hsm_g = s.hsm_g)
    ∧ List.Chain' (· < ·) (selIdx mask)
    ∧ (∀ m2 : List Bool, m2.length ≠ s.npart →
        apply_mask s m2 = Except.error MaskError.lengthMismatch)
    ∧ (∀ m2 : List Bool, m2.length = s.npart → m2.count true = 0 →
        apply_mask s m2 = Except.error MaskError.emptySelection) := by
  have hp : s.pos.length = mask.length := by
    rw [hlen]
    rfl
  have hv : s.vel.length = mask.length := by
    rw [hlen]
    exact hlv
  have hT : s.T_g.length = mask.length := by
    rw [hlen]
    exact hlT
  have hm : s.mHI_g.length = mask.length := by
    rw [hlen]
    exact hlm
  refine ⟨?_, selIdx_chain mask, ?_, ?_⟩
  · refine ⟨Source.mk (maskFilter mask s.pos) (maskFilter mask s.vel)
        (maskFilter mask s.T_g) (maskFilter mask s.mHI_g) s.hsm_g,
      ?_, maskFilter_eq_selIdx _ mask s.pos hp,
      maskFilter_eq_selIdx _ mask s.vel hv, maskFilter_eq_selIdx _ mask s.T_g hT,
      maskFilter_eq_selIdx _ mask s.mHI_g hm, rfl⟩
    unfold apply_mask
    rw [if_neg (fun hc => hc hlen), if_neg hsel]
  · intro m2 h2
    unfold apply_mask
    rw [if_pos h2]
  · intro m2 h2 h3
    unfold apply_mask
    rw [if_neg (fun hc => hc h2), if_pos h3]

/-- Concrete three-particle ensemble used to witness the masking law. -/
def sC7 : Source :=
  ⟨[⟨1, 0, 0⟩, ⟨2, 0, 0⟩, ⟨3, 0, 0⟩], [⟨0, 1, 0⟩, ⟨0, 2, 0⟩, ⟨0, 3, 0⟩],
    [10, 20, 30], [1, 2, 3], 5⟩

/-- C7 witness: the masking law instantiated with mask (true, false, true) on
a concrete three-particle ensemble. -/
theorem C7_apply_mask_witness :
    (sC7.vel.length = sC7.npart ∧ sC7.T_g.length = sC7.npart
      ∧ sC7.mHI_g.length = sC7.npart
      ∧ [true, false, true].length = sC7.npart
      ∧ [true, false, true].count true ≠ 0)
    ∧ ((∃ s', apply_mask sC7 [true, false, true] = Except.ok s'
        ∧ s'.pos = (selIdx [true, false, true]).map (fun i => sC7.pos.getD i ⟨0, 0, 0⟩)
        ∧ s'.vel = (selIdx [true, false, true]).map (fun i => sC7.vel.getD i ⟨0, 0, 0⟩)
        ∧ s'.T_g = (selIdx [true, false, true]).map (fun i => sC7.T_g.getD i 0)
        ∧ s'.mHI_g = (selIdx [true, false, true]).map (fun i => sC7.mHI_g.getD i 0)
        ∧ s'.hsm_g = sC7.hsm_g)
      ∧ List.Chain' (· < ·) (selIdx [true, false, true])
      ∧ (∀ m2 : List Bool, m2.length ≠ sC7.npart →
          apply_mask sC7 m2 = Except.error MaskError.lengthMismatch)
      ∧ (∀ m2 : List Bool, m2.length = sC7.npart → m2.count true = 0 →
          apply_mask sC7 m2 = Except.error MaskError.emptySelection)) :=
  ⟨⟨rfl, rfl, rfl, rfl, by decide⟩,
    C7_apply_mask sC7 [true, false, true] rfl rfl rfl rfl (by decide)⟩

/-- The failures ensemble construction can raise: the axis cannot be guessed
(AmbiguousShapeError of the spec, RuntimeError of the code) or the position
and velocity arrays disagree (ShapeMismatchError, ValueError). -/
inductive SPHError
  | ambiguousShape
  | shapeMismatch
deriving DecidableEq

/-- Number of rows of a 2-D array given as a list of rows. -/
def nRows (a : List (List ℚ)) : Nat := a.length

/-- Number of columns of a 2-D array (length of the first row; meaningful for
rectangular arrays). -/
def nCols (a : List (List ℚ)) : Nat := (a.headD []).length

/-- Rectangularity: every row has the common length. -/
def rect (a : List (List ℚ)) : Prop := ∀ r ∈ a, r.length = nCols a

/-- Particle i of an array whose coordinates run along axis 0 (shape (3, n),
particles along columns). -/
def colVec (a : List (List ℚ)) (i : Nat) : Vec3 :=
  ⟨(a.getD 0 []).getD i 0, (a.getD 1 []).getD i 0, (a.getD 2 []).getD i 0⟩

/-- Particle i of an array whose coordinates run along axis 1 (shape (n, 3),
particles along rows). -/
def rowVec (a : List (List ℚ)) (i : Nat) : Vec3 :=
  ⟨(a.getD i []).getD 0 0, (a.getD i []).getD 1 0, (a.getD i []).getD 2 0⟩

/-- Modelled from the spec: inference of coordinate_axis from the array shape
(SPHSource module absent from src/).  coordinate_axis = 0 means the x/y/z
components run along axis 0 (particles along columns); 1 means they run along
axis 1 (particles along rows).  A 3 x 3 shape without an explicit hint cannot
be guessed; nor can a shape without a length-3 axis. -/
def inferAxis (r c : Nat) (hint : Option (Fin 2)) : Except SPHError (Fin 2) :=
  match hint with
  | some ax => Except.ok ax
  | none =>
    if r = 3 ∧ c = 3 then Except.error SPHError.ambiguousShape
    else if c = 3 then Except.ok 1
    else if r = 3 then Except.ok 0
    else Except.error SPHError.ambiguousShape

/-- The canonical index-by-particle geometry of an ensemble. -/
structure Geom where
  pos : List Vec3
  vel : List Vec3
deriving DecidableEq

/-- Canonicalisation of one array to the index-by-particle representation for
the resolved coordinate axis. -/
def canon (ax : Fin 2) (a : List (List ℚ)) : List Vec3 :=
  if ax = 1 then (List.range (nRows a)).map (rowVec a)
  else (List.range (nCols a)).map (colVec a)

/-- Modelled from the spec: SPHSource construction shape handling (module
absent from src/): position and velocity arrays must have matching shapes,
then the coordinate axis is taken from the hint or inferred from the shape,
and both arrays are canonicalised to the index-by-particle representation. -/
def constructSource (xyz vxyz : List (List ℚ)) (hint : Option (Fin 2)) :
    Except SPHError Geom :=
  if nRows xyz = nRows vxyz ∧ nCols xyz = nCols vxyz then
    (inferAxis (nRows xyz) (nCols xyz) hint).map fun ax =>
      ⟨canon ax xyz, canon ax vxyz⟩
  else Except.error SPHError.shapeMismatch

/-- The particle count a shape implies when the axis is inferable without a
hint: none exactly when inference would fail. -/
def inferredCount (r c : Nat) : Option Nat :=
  if r = 3 ∧ c = 3 then none
  else if c = 3 then some r
  else if r = 3 then some c
  else none

theorem getD_range_map {α : Type} (f : Nat → α) (d : α) (n i : Nat) (h : i < n) :
    ((List.range n).map f).getD i d = f i := by
  induction n generalizing i f with
  | zero => omega
  | succ m ih =>
    rw [List.range_succ_eq_map]
    cases i with
    | zero => simp
    | succ k =>
      simp only [List.map_cons, List.getD_cons_succ, List.map_map]
      have := ih (fun j => f (j + 1)) k (by omega)
      simpa [Function.comp] using this

/-- C8 (amended): a 3 x 3 position/velocity pair without an explicit axis hint
fails with the ambiguous shape error; arrays whose inferred particle counts
disagree fail with the shape mismatch error; and for every non-square 2-D
input with a length-3 dimension (matching shapes) the particle axis is
inferred automatically and the ensemble canonicalises to the index-by-particle
representation — one entry per particle, read along the inferred axis. -/
theorem C8_construct_shapes (xyz vxyz : List (List ℚ))
    (hr : nRows xyz = nRows vxyz) (hc : nCols xyz = nCols vxyz)
    (hne : nRows xyz ≠ nCols xyz) (h3 : nRows xyz = 3 ∨ nCols xyz = 3) :
    (∃ geom, constructSource xyz vxyz none = Except.ok geom
      ∧ geom.pos.length = (if nCols xyz = 3 then nRows xyz else nCols xyz)
      ∧ geom.vel.length = (if nCols xyz = 3 then nRows xyz else nCols xyz)
      ∧ (∀ i, i < (if nCols xyz = 3 then nRows xyz else nCols xyz) →
          geom.pos.getD i ⟨0, 0, 0⟩
              = (if nCols xyz = 3 then rowVec xyz i else colVec xyz i)
            ∧ geom.vel.getD i ⟨0, 0, 0⟩
              = (if nCols xyz = 3 then rowVec vxyz i else colVec vxyz i)))
    ∧ (∀ a b : List (List ℚ), nRows a = 3 → nCols a = 3 → nRows b = 3 →
        nCols b = 3 →
        constructSource a b none = Except.error SPHError.ambiguousShape)
    ∧ (∀ (a b : List (List ℚ)) (n m : Nat),
        inferredCount (nRows a) (nCols a) = some n →
        inferredCount (nRows b) (nCols b) = some m → n ≠ m →
        constructSource a b none = Except.error SPHError.shapeMismatch) := by
  refine ⟨?_, ?_, ?_⟩
  · by_cases hcols : nCols xyz = 3
    · have hrows : nRows xyz ≠ 3 := by
        intro h
        exact hne (h.trans hcols.symm)
      have hax : inferAxis (nRows xyz) (nCols xyz) none = Except.ok 1 := by
        unfold inferAxis
        rw [if_neg (fun hb => hrows hb.1), if_pos hcols]
      have hcon : constructSource xyz vxyz none
          = Except.ok ⟨canon 1 xyz, canon 1 vxyz⟩ := by
        unfold constructSource
        rw [if_pos ⟨hr, hc⟩, hax]
        rfl
      refine ⟨_, hcon, ?_, ?_, ?_⟩
      · simp [canon, hcols]
      · simp [canon, hcols, ← hr]
      · intro i hi
        rw [if_pos hcols] at hi
        constructor
        · rw [if_pos hcols]
          simp only [canon, if_pos rfl]
          exact getD_range_map (rowVec xyz) _ _ i hi
        · rw [if_pos hcols]
          simp only [canon, if_pos rfl]
          exact getD_range_map (rowVec vxyz) _ _ i (by rw [← hr]; exact hi)
    · have hrows : nRows xyz = 3 := h3.resolve_right hcols
      have hax : inferAxis (nRows xyz) (nCols xyz) none = Except.ok 0 := by
        unfold inferAxis
        rw [if_neg (fun hb => hcols hb.2), if_neg hcols, if_pos hrows]
      have hcon : constructSource xyz vxyz none
          = Except.ok ⟨canon 0 xyz, canon 0 vxyz⟩ := by
        unfold constructSource
        rw [if_pos ⟨hr, hc⟩, hax]
        rfl
      have h01 : ((0 : Fin 2) = 1) = False := by
        simp
      refine ⟨_, hcon, ?_, ?_, ?_⟩
      · simp [canon, hcols, h01]
      · simp [canon, hcols, h01, ← hc]
      · intro i hi
        rw [if_neg hcols] at hi
        constructor
        · rw [if_neg hcols]
          simp only [canon, h01, if_false]
          exact getD_range_map (colVec xyz) _ _ i hi
        · rw [if_neg hcols]
          simp only [canon, h01, if_false]
          exact getD_range_map (colVec vxyz) _ _ i (by rw [← hc]; exact hi)
  · intro a b ha1 ha2 hb1 hb2
    unfold constructSource
    rw [if_pos ⟨ha1.trans hb1.symm, ha2.trans hb2.symm⟩]
    unfold inferAxis
    rw [if_pos ⟨ha1, ha2⟩]
    rfl
  · intro a b n m hn hm hnm
    unfold constructSource
    rw [if_neg]
    rintro ⟨h1, h2⟩
    rw [h1, h2] at hn
    exact hnm (Option.some.inj (hn.symm.trans hm))

/-- C8 counterexample: a non-square 4 x 5 pair (no length-3 dimension) does
not get its particle axis inferred — construction fails with the ambiguous
shape error instead of canonicalising. -/
theorem C8_counterexample :
    constructSource (List.replicate 4 (List.replicate 5 0))
        (List.replicate 4 (List.replicate 5 0)) none
      = Except.error SPHError.ambiguousShape
    ∧ ¬ ∃ geom, constructSource (List.replicate 4 (List.replicate 5 0))
        (List.replicate 4 (List.replicate 5 0)) none = Except.ok geom := by
  constructor
  · rfl
  · rintro ⟨geom, hg⟩
    rw [show constructSource (List.replicate 4 (List.replicate 5 0))
        (List.replicate 4 (List.replicate 5 0)) none
      = Except.error SPHError.ambiguousShape from rfl] at hg
    exact Except.noConfusion hg

/-- Concrete 2 x 3 (particles-first) arrays used to witness the construction
law. -/
def xyzC8 : List (List ℚ) := [[1, 2, 3], [4, 5, 6]]

/-- Concrete velocities matching `xyzC8` in shape. -/
def vxyzC8 : List (List ℚ) := [[7, 8, 9], [10, 11, 12]]

/-- C8 witness: the construction law instantiated on the concrete 2 x 3
arrays, whose particle axis is inferred as rows. -/
theorem C8_construct_shapes_witness :
    (nRows xyzC8 = nRows vxyzC8 ∧ nCols xyzC8 = nCols vxyzC8
      ∧ nRows xyzC8 ≠ nCols xyzC8 ∧ (nRows xyzC8 = 3 ∨ nCols xyzC8 = 3))
    ∧ ((∃ geom, constructSource xyzC8 vxyzC8 none = Except.ok geom
        ∧ geom.pos.length = (if nCols xyzC8 = 3 then nRows xyzC8 else nCols xyzC8)
        ∧ geom.vel.length = (if nCols xyzC8 = 3 then nRows xyzC8 else nCols xyzC8)
        ∧ (∀ i, i < (if nCols xyzC8 = 3 then nRows xyzC8 else nCols xyzC8) →
            geom.pos.getD i ⟨0, 0, 0⟩
                = (if nCols xyzC8 = 3 then rowVec xyzC8 i else colVec xyzC8 i)
              ∧ geom.vel.getD i ⟨0, 0, 0⟩
                = (if nCols xyzC8 = 3 then rowVec vxyzC8 i else colVec vxyzC8 i)))
      ∧ (∀ a b : List (List ℚ), nRows a = 3 → nCols a = 3 → nRows b = 3 →
          nCols b = 3 →
          constructSource a b none = Except.error SPHError.ambiguousShape)
      ∧ (∀ (a b : List (List ℚ)) (n m : Nat),
          inferredCount (nRows a) (nCols a) = some n →
          inferredCount (nRows b) (nCols b) = some m → n ≠ m →
          constructSource a b none = Except.error SPHError.shapeMismatch)) :=
  ⟨⟨rfl, rfl, by decide, Or.inr rfl⟩,
    C8_construct_shapes xyzC8 vxyzC8 rfl rfl (by decide) (Or.inr rfl)⟩
